import Mathlib

/-!
Verification of the agentic swim-coach analysis engine
(`src/core/analysis/agentic_coach.py` and `src/core/analysis/models.py`).

The Python code is shallowly embedded: pure functions become Lean
functions, Python `float` values that the code manipulates exactly
(timestamps, frame rates) are modelled as `ℚ`, Python exceptions become
`Except`, and the two external collaborators (frame extractor, vision
model client) become function parameters whose calls are recorded in an
explicit trace.  `json.loads` (a stdlib service, not repository code) is
a parameter `loads` of the response parser.
-/

set_option maxHeartbeats 1000000

/- Batteries marks the `Rat` arithmetic operations `@[irreducible]`; re-allow
unfolding within this file so that `decide` can evaluate the embedded
functions on concrete rational inputs. -/
attribute [local semireducible] Rat.mul Rat.add Rat.sub Rat.inv

/-! ### Enums from `models.py` -/

/-- `StrokeType` enum (`models.py` lines 16-22). -/
inductive StrokeType where
  | FREESTYLE
  | BACKSTROKE
  | BREASTSTROKE
  | BUTTERFLY
  | MIXED
deriving DecidableEq

/-- The `.value` string of a `StrokeType` member. -/
def StrokeType.value : StrokeType → String
  | .FREESTYLE => "freestyle"
  | .BACKSTROKE => "backstroke"
  | .BREASTSTROKE => "breaststroke"
  | .BUTTERFLY => "butterfly"
  | .MIXED => "mixed"

/-- `TechniqueCategory` enum (`models.py` lines 25-39): the eight categories. -/
inductive TechniqueCategory where
  | BODY_POSITION
  | CATCH_AND_PULL
  | RECOVERY
  | KICK
  | TIMING
  | BREATHING
  | TURNS
  | STARTS
deriving DecidableEq

/-- Calling the enum on a string, `TechniqueCategory(s)`: `some` member whose
value is `s`, `none` models the `ValueError` raised for an unknown string. -/
def techniqueCategoryOfValue (s : String) : Option TechniqueCategory :=
  if s = "body_position" then some .BODY_POSITION
  else if s = "catch_and_pull" then some .CATCH_AND_PULL
  else if s = "recovery" then some .RECOVERY
  else if s = "kick" then some .KICK
  else if s = "timing" then some .TIMING
  else if s = "breathing" then some .BREATHING
  else if s = "turns" then some .TURNS
  else if s = "starts" then some .STARTS
  else none

/-- `FeedbackPriority` enum (`models.py` lines 42-51). -/
inductive FeedbackPriority where
  | PRIMARY
  | SECONDARY
  | REFINEMENT
deriving DecidableEq

/-- Calling the enum on a string, `FeedbackPriority(s)`; `none` models the
`ValueError` raised for an unknown string. -/
def feedbackPriorityOfValue (s : String) : Option FeedbackPriority :=
  if s = "primary" then some .PRIMARY
  else if s = "secondary" then some .SECONDARY
  else if s = "refinement" then some .REFINEMENT
  else none

/-! ### Rounding and number formatting

Python `round(x, 2)` rounds to the nearest multiple of `1/100`, ties to
even (banker's rounding); `f"{x:.1f}"` and `f"{x:.2f}"` format with the
same rounding rule.  Modelled exactly on `ℚ`. -/

/-- Round-half-to-even to the nearest integer, as Python `round` does. -/
def roundHalfEven (q : ℚ) : ℤ :=
  if q - ⌊q⌋ < 1/2 then ⌊q⌋
  else if 1/2 < q - ⌊q⌋ then ⌊q⌋ + 1
  else if ⌊q⌋ % 2 = 0 then ⌊q⌋ else ⌊q⌋ + 1

/-- Python `round(q, 2)`. -/
def round2 (q : ℚ) : ℚ := (roundHalfEven (q * 100) : ℚ) / 100

theorem roundHalfEven_ge_floor (q : ℚ) : ⌊q⌋ ≤ roundHalfEven q := by
  unfold roundHalfEven
  split_ifs <;> omega

theorem roundHalfEven_le_floor_add_one (q : ℚ) : roundHalfEven q ≤ ⌊q⌋ + 1 := by
  unfold roundHalfEven
  split_ifs <;> omega

theorem roundHalfEven_le (q : ℚ) : (roundHalfEven q : ℚ) ≤ q + 1/2 := by
  unfold roundHalfEven
  have h1 : (⌊q⌋ : ℚ) ≤ q := Int.floor_le q
  have h2 : q < ⌊q⌋ + 1 := Int.lt_floor_add_one q
  split_ifs <;> push_cast <;> linarith

theorem roundHalfEven_ge (q : ℚ) : q - 1/2 ≤ (roundHalfEven q : ℚ) := by
  unfold roundHalfEven
  have h1 : (⌊q⌋ : ℚ) ≤ q := Int.floor_le q
  have h2 : q < ⌊q⌋ + 1 := Int.lt_floor_add_one q
  split_ifs <;> push_cast <;> linarith

theorem roundHalfEven_mono {x y : ℚ} (h : x ≤ y) :
    roundHalfEven x ≤ roundHalfEven y := by
  rcases lt_or_eq_of_le (Int.floor_le_floor h) with hf | hf
  · calc roundHalfEven x ≤ ⌊x⌋ + 1 := roundHalfEven_le_floor_add_one x
      _ ≤ ⌊y⌋ := by omega
      _ ≤ roundHalfEven y := roundHalfEven_ge_floor y
  · unfold roundHalfEven
    rw [hf]
    have hr : x - ⌊y⌋ ≤ y - ⌊y⌋ := by
      have : ((⌊y⌋ : ℚ)) = ((⌊y⌋ : ℚ)) := rfl
      linarith
    split_ifs <;> first | omega | linarith

theorem round2_mono {x y : ℚ} (h : x ≤ y) : round2 x ≤ round2 y := by
  unfold round2
  have := roundHalfEven_mono (show x * 100 ≤ y * 100 by linarith)
  have h' : (roundHalfEven (x * 100) : ℚ) ≤ (roundHalfEven (y * 100) : ℚ) := by
    exact_mod_cast this
  linarith

theorem round2_le (q : ℚ) : round2 q ≤ q + 1/200 := by
  unfold round2
  have := roundHalfEven_le (q * 100)
  linarith

theorem round2_ge (q : ℚ) : q - 1/200 ≤ round2 q := by
  unfold round2
  have := roundHalfEven_ge (q * 100)
  linarith

/-! ### `FrameRequest` (`agentic_coach.py` lines 100-117) -/

/-- A request from the AI for more frames at specific times. -/
structure FrameRequest where
  start_seconds : ℚ
  end_seconds : ℚ
  reason : String
  fps : ℚ := 2
deriving DecidableEq

/-- The `while t <= end` loop of `FrameRequest.timestamps`, with explicit
fuel.  Each pass appends `round(t, 2)` and advances `t` by `interval`. -/
def timestampsAux (endS interval : ℚ) : ℚ → Nat → List ℚ
  | _, 0 => []
  | t, fuel + 1 =>
    if t ≤ endS then round2 t :: timestampsAux endS interval (t + interval) fuel
    else []

/-- `FrameRequest.timestamps` (lines 108-117): `result = []; t = start;
interval = 1/fps; while t <= end: result.append(round(t, 2)); t += interval`.
The fuel `⌈(end-start)*fps⌉+1` bounds the number of loop passes whenever
`fps > 0` (the only case the engine reaches: requested rates are positive),
so the embedding computes the same list the Python loop does. -/
def FrameRequest.timestamps (r : FrameRequest) : List ℚ :=
  timestampsAux r.end_seconds (1 / r.fps) r.start_seconds
    (((r.end_seconds - r.start_seconds) * r.fps).ceil.natAbs + 1)

theorem timestampsAux_mem_le {endS interval : ℚ} :
    ∀ (fuel : Nat) (t : ℚ), ∀ x ∈ timestampsAux endS interval t fuel,
      x ≤ endS + 1/200
  | 0, _, x, hx => by simp [timestampsAux] at hx
  | fuel + 1, t, x, hx => by
    unfold timestampsAux at hx
    split_ifs at hx with h
    · rcases List.mem_cons.mp hx with rfl | hx
      · have := round2_le t; linarith
      · exact timestampsAux_mem_le fuel (t + interval) x hx
    · simp at hx

theorem timestampsAux_head_le {endS interval : ℚ} (hint : 0 ≤ interval) :
    ∀ (fuel : Nat) (t : ℚ), ∀ x ∈ timestampsAux endS interval t fuel,
      round2 t ≤ x
  | 0, _, x, hx => by simp [timestampsAux] at hx
  | fuel + 1, t, x, hx => by
    unfold timestampsAux at hx
    split_ifs at hx with h
    · rcases List.mem_cons.mp hx with rfl | hx
      · exact le_refl _
      · calc round2 t ≤ round2 (t + interval) := round2_mono (by linarith)
          _ ≤ x := timestampsAux_head_le hint fuel (t + interval) x hx
    · simp at hx

theorem timestampsAux_sorted {endS interval : ℚ} (hint : 0 ≤ interval) :
    ∀ (fuel : Nat) (t : ℚ),
      List.Sorted (· ≤ ·) (timestampsAux endS interval t fuel)
  | 0, _ => by simp [timestampsAux]
  | fuel + 1, t => by
    unfold timestampsAux
    split_ifs with h
    · refine List.sorted_cons.mpr
        ⟨fun x hx => le_trans (round2_mono (by linarith))
          (timestampsAux_head_le hint fuel (t + interval) x hx),
         timestampsAux_sorted hint fuel (t + interval)⟩
    · simp

theorem timestampsAux_mult {endS interval : ℚ} :
    ∀ (fuel : Nat) (t : ℚ), ∀ x ∈ timestampsAux endS interval t fuel,
      ∃ n : ℤ, x = (n : ℚ) / 100
  | 0, _, x, hx => by simp [timestampsAux] at hx
  | fuel + 1, t, x, hx => by
    unfold timestampsAux at hx
    split_ifs at hx with h
    · rcases List.mem_cons.mp hx with rfl | hx
      · exact ⟨roundHalfEven (t * 100), rfl⟩
      · exact timestampsAux_mult fuel (t + interval) x hx
    · simp at hx

/-! ### Python string helpers used by the module -/

/-- Python `\s` (ASCII whitespace) for the regexes and `str.strip`. -/
def isSpaceChar (c : Char) : Bool :=
  c == ' ' || c == '\t' || c == '\n' || c == '\r' || c == '\x0b' || c == '\x0c'

/-- Zero-pad a rendered number on the left to width `w`, as the `0` flag of a
Python format spec does. -/
def padZeroLeft (w : Nat) (s : String) : String :=
  String.mk (List.replicate (w - s.length) '0') ++ s

/-- Python `f"{q:.df}"` fixed-point formatting of an exact value: round
half-to-even at `d` decimal places and render. -/
def formatFixed (d : Nat) (q : ℚ) : String :=
  (if roundHalfEven (q * ((10 : ℚ) ^ d)) < 0 then "-" else "") ++
    toString ((roundHalfEven (q * ((10 : ℚ) ^ d))).natAbs / 10 ^ d) ++ "." ++
    padZeroLeft d (toString ((roundHalfEven (q * ((10 : ℚ) ^ d))).natAbs % 10 ^ d))

/-! ### `TimestampedFeedback` (`agentic_coach.py` lines 74-97) -/

/-- Feedback linked to specific video timestamps. -/
structure TimestampedFeedback where
  category : TechniqueCategory
  description : String
  recommendation : String
  start_seconds : ℚ
  end_seconds : Option ℚ := none
  priority : FeedbackPriority := .SECONDARY
  drill_suggestions : List String := []
deriving DecidableEq

/-- `_format_timestamp` (lines 94-97): `f"{int(seconds // 60)}:{seconds % 60:04.1f}"`. -/
def format_timestamp (seconds : ℚ) : String :=
  toString (⌊seconds / 60⌋ : ℤ) ++ ":" ++
    padZeroLeft 4 (formatFixed 1 (seconds - 60 * ((⌊seconds / 60⌋ : ℤ) : ℚ)))

/-- `timestamp_display` (lines 85-92).  Note the Python truthiness test
`if self.end_seconds and ...`: an end of `None` or `0.0` shows only the start. -/
def TimestampedFeedback.timestamp_display (tf : TimestampedFeedback) : String :=
  match tf.end_seconds with
  | some e =>
    if e ≠ 0 ∧ e ≠ tf.start_seconds then
      format_timestamp tf.start_seconds ++ "-" ++ format_timestamp e
    else format_timestamp tf.start_seconds
  | none => format_timestamp tf.start_seconds

/-! ### `AgentIteration` and `AgenticAnalysisResult` (lines 120-140) -/

/-- Record of one iteration of the agent loop. -/
structure AgentIteration where
  iteration_number : Nat
  frames_analyzed : Nat
  timestamps : List ℚ
  response_summary : String
  frame_requests : List FrameRequest
  feedback_items : List TimestampedFeedback
deriving DecidableEq

/-- Complete result of multi-pass agentic analysis (lines 131-140).  The
dataclass has exactly these content fields plus a random `session_id`
(`uuid4()`), which is not modelled; it carries no success/partial flag. -/
structure AgenticAnalysisResult where
  stroke_type : StrokeType
  video_duration_seconds : ℚ
  iterations : List AgentIteration := []
  final_summary : String := ""
  timestamped_feedback : List TimestampedFeedback := []
  total_frames_analyzed : Nat := 0
deriving DecidableEq

/-! ### The response "dict" and the parser (`_parse_response`, lines 497-525)

A successfully decoded model reply is a JSON object read with `dict.get`
and per-key defaults; missing keys are `none`.  `json.loads` itself is
Python stdlib, so it enters the model as the parameter `loads`. -/

/-- One entry of the reply's `frame_requests` array. -/
structure FrameReqJson where
  start_seconds : Option ℚ := none
  end_seconds : Option ℚ := none
  reason : Option String := none
  fps : Option ℚ := none
deriving DecidableEq

/-- One entry of the reply's `feedback` array. -/
structure FbJson where
  category : Option String := none
  priority : Option String := none
  observation : Option String := none
  recommendation : Option String := none
  timestamp_start : Option ℚ := none
  timestamp_end : Option ℚ := none
  drills : Option (List String) := none
deriving DecidableEq

/-- A decoded model reply, at the keys the engine reads. -/
structure ParsedResponse where
  summary : Option String := none
  need_more_frames : Option Bool := none
  frame_requests : Option (List FrameReqJson) := none
  feedback : Option (List FbJson) := none
deriving DecidableEq

/-- The fallback dict `{"summary": response, "need_more_frames": False,
"feedback": []}` (lines 511-515 and 521-525). -/
def sentinelResponse (response : String) : ParsedResponse :=
  { summary := some response, need_more_frames := some false,
    frame_requests := none, feedback := some [] }

/-! The two `re.search` calls of `_parse_response`, modelled character by
character.  `re.search(r'\x7b.*\x7d', response, re.DOTALL)` (greedy, DOTALL)
matches from the first `\x7b` through the last `\x7d` after it, if any. -/

/-- `re.search(r'\x7b.*\x7d', ..., re.DOTALL)`: group 0, or `none`. -/
def searchRaw : List Char → Option (List Char)
  | [] => none
  | c :: rest =>
    if c = '\x7b' then
      match rest.reverse.dropWhile (· != '\x7d') with
      | [] => none
      | d :: ds => some ('\x7b' :: (d :: ds).reverse)
    else searchRaw rest

/-- Does the remainder match `\s*` followed by a ``` fence (the tail of the
fenced-block pattern after the captured group)? -/
def wsFence (l : List Char) : Bool :=
  match l.dropWhile isSpaceChar with
  | '\x60' :: '\x60' :: '\x60' :: _ => true
  | _ => false

/-- Lazy expansion of `(\x7b.*?\x7d)\s*` ``` : grow the group one character at
a time, closing at the first `\x7d` whose remainder matches `\s*` ``` . -/
def lazyClose (acc : List Char) : List Char → Option (List Char)
  | [] => none
  | c :: rest =>
    if c == '\x7d' && wsFence rest then some (acc ++ ['\x7d'])
    else lazyClose (acc ++ [c]) rest

/-- After the fence (and optional `json` tag): `\s*` then the captured
`\x7b.*?\x7d` group. -/
def fencedTail (r : List Char) : Option (List Char) :=
  match r.dropWhile isSpaceChar with
  | '\x7b' :: body => lazyClose ['\x7b'] body
  | _ => none

/-- Try the fenced-block pattern anchored at the current position: a ```
fence, an optional greedy `json` tag (with backtracking), then `fencedTail`. -/
def fencedAt : List Char → Option (List Char)
  | '\x60' :: '\x60' :: '\x60' :: r =>
    match r with
    | 'j' :: 's' :: 'o' :: 'n' :: r2 => (fencedTail r2).orElse (fun _ => fencedTail r)
    | _ => fencedTail r
  | _ => none

/-- `re.search` of the fenced pattern: leftmost position where it matches. -/
def searchFenced : List Char → Option (List Char)
  | [] => none
  | c :: rest => (fencedAt (c :: rest)).orElse (fun _ => searchFenced rest)

/-- Is there a `\x7b` with a `\x7d` somewhere after it?  Exactly when the raw
regex `\x7b.*\x7d` (and hence also the fenced pattern) can match. -/
def hasBraceSpan : List Char → Bool
  | [] => false
  | c :: rest => if c = '\x7b' then rest.contains '\x7d' else hasBraceSpan rest

/-- `_parse_response` (lines 497-525): fenced block first, then a raw brace
span; decode what was found with `loads`, falling back to the sentinel when
nothing was found or decoding fails (`json.JSONDecodeError`). -/
def parse_response (loads : String → Option ParsedResponse) (response : String) :
    ParsedResponse :=
  match (searchFenced response.data).orElse (fun _ => searchRaw response.data) with
  | none => sentinelResponse response
  | some jsonStr =>
    match loads (String.mk jsonStr) with
    | some d => d
    | none => sentinelResponse response

/-! ### `_parse_feedback` (lines 527-552) -/

/-- Body of the `for fb in parsed.get("feedback", [])` loop: build one
`TimestampedFeedback`, with the two `try/except ValueError` fallbacks for
an unknown category or priority string. -/
def convertFeedbackEntry (fb : FbJson) : TimestampedFeedback :=
  { category :=
      (techniqueCategoryOfValue (fb.category.getD "body_position")).getD .BODY_POSITION
    priority :=
      (feedbackPriorityOfValue (fb.priority.getD "secondary")).getD .SECONDARY
    description := fb.observation.getD ""
    recommendation := fb.recommendation.getD ""
    start_seconds := fb.timestamp_start.getD 0
    end_seconds := fb.timestamp_end
    drill_suggestions := fb.drills.getD [] }

/-- `_parse_feedback`: extract feedback items from a parsed response. -/
def parse_feedback (parsed : ParsedResponse) : List TimestampedFeedback :=
  (parsed.feedback.getD []).map convertFeedbackEntry

/-! ### Lemmas: when the reply holds no brace span, both searches fail -/

theorem searchRaw_eq_none {l : List Char} (h : hasBraceSpan l = false) :
    searchRaw l = none := by
  induction l with
  | nil => rfl
  | cons c rest ih =>
    unfold searchRaw
    unfold hasBraceSpan at h
    split_ifs with hc
    · rw [if_pos hc] at h
      have hmem : ∀ x ∈ rest.reverse, (x != '\x7d') = true := by
        intro x hx
        have hxr : x ∈ rest := List.mem_reverse.mp hx
        have : x ≠ '\x7d' := by
          intro rfl'
          subst rfl'
          simp only [List.contains] at h
          rw [List.elem_eq_true_of_mem hxr] at h
          exact absurd h (by simp)
        simpa using this
      rw [List.dropWhile_eq_nil_iff.mpr hmem]
    · rw [if_neg hc] at h
      exact ih h

theorem hasBraceSpan_close_mem {l : List Char} (h : hasBraceSpan l = true) :
    '\x7d' ∈ l := by
  induction l with
  | nil => simp [hasBraceSpan] at h
  | cons c rest ih =>
    unfold hasBraceSpan at h
    split_ifs at h with hc
    · exact List.mem_cons_of_mem c (List.mem_of_elem_eq_true (by simpa [List.contains] using h))
    · exact List.mem_cons_of_mem c (ih h)

theorem hasBraceSpan_cons_of {c : Char} {l : List Char}
    (h : hasBraceSpan l = true) : hasBraceSpan (c :: l) = true := by
  unfold hasBraceSpan
  split_ifs with hc
  · simp only [List.contains]
    exact List.elem_eq_true_of_mem (hasBraceSpan_close_mem h)
  · exact h

theorem hasBraceSpan_of_suffix {body l : List Char}
    (hs : ('\x7b' :: body) <:+ l) (hm : '\x7d' ∈ body) :
    hasBraceSpan l = true := by
  induction l with
  | nil => simp at hs
  | cons c rest ih =>
    rcases List.suffix_cons_iff.mp hs with heq | hs'
    · injection heq with h1 h2
      subst h2
      unfold hasBraceSpan
      rw [if_pos h1.symm]
      simp only [List.contains]
      exact List.elem_eq_true_of_mem hm
    · exact hasBraceSpan_cons_of (ih hs')

theorem lazyClose_close_mem {g : List Char} :
    ∀ (acc l : List Char), lazyClose acc l = some g → '\x7d' ∈ l
  | _, [], h => by simp [lazyClose] at h
  | acc, c :: rest, h => by
    unfold lazyClose at h
    split_ifs at h with hc
    · have : c = '\x7d' := by
        have := (Bool.and_eq_true _ _).mp hc |>.1
        simpa using this
      exact this ▸ List.mem_cons_self c rest
    · exact List.mem_cons_of_mem c (lazyClose_close_mem (acc ++ [c]) rest h)

theorem fencedTail_brace {r g : List Char} (h : fencedTail r = some g) :
    ∃ body, ('\x7b' :: body) <:+ r ∧ '\x7d' ∈ body := by
  unfold fencedTail at h
  split at h
  · rename_i body heq
    refine ⟨body, ?_, lazyClose_close_mem _ _ h⟩
    rw [← heq]
    exact List.dropWhile_suffix _
  · exact absurd h (by simp)

theorem fencedAt_brace {l g : List Char} (h : fencedAt l = some g) :
    hasBraceSpan l = true := by
  unfold fencedAt at h
  split at h
  · rename_i r
    have hsub : ∀ r' : List Char, r' <:+ r → fencedTail r' = some g →
        hasBraceSpan ('\x60' :: '\x60' :: '\x60' :: r) = true := by
      intro r' hr' hft
      obtain ⟨body, hs, hm⟩ := fencedTail_brace hft
      refine hasBraceSpan_of_suffix (List.IsSuffix.trans (hs.trans hr') ?_) hm
      exact (List.suffix_cons _ _).trans ((List.suffix_cons _ _).trans (List.suffix_cons _ _))
    split at h
    · rename_i r2
      rcases hft : fencedTail r2 with _ | g'
      · rw [hft] at h
        simp only [Option.orElse] at h
        exact hsub _ (by exact List.suffix_refl _) h
      · rw [hft] at h
        simp only [Option.orElse] at h
        refine hsub r2 ?_ (h ▸ hft)
        exact (List.suffix_cons _ _).trans ((List.suffix_cons _ _).trans
          ((List.suffix_cons _ _).trans (List.suffix_cons _ _)))
    · exact hsub r (List.suffix_refl _) h
  · exact absurd h (by simp)

theorem searchFenced_eq_none {l : List Char} (h : hasBraceSpan l = false) :
    searchFenced l = none := by
  induction l with
  | nil => rfl
  | cons c rest ih =>
    unfold searchFenced
    rcases hfa : fencedAt (c :: rest) with _ | g
    · have hrest : hasBraceSpan rest = false := by
        rcases hbs : hasBraceSpan rest with _ | _
        · rfl
        · exact absurd (hasBraceSpan_cons_of hbs) (by rw [h]; simp)
      rw [ih hrest]
      rfl
    · exact absurd (fencedAt_brace hfa) (by rw [h]; simp)

/-- C4: `_parse_response` always returns a dict (in the embedding it is a
total function into `ParsedResponse`), and whenever the input holds no
parseable JSON object anywhere — no brace span at all, so neither the fenced
nor the raw regex can match, or `loads` (i.e. `json.loads`) rejects every
candidate string — the returned dict is exactly the sentinel
`{summary: raw text, need_more_frames: false, feedback: []}`. -/
theorem parse_response_sentinel_on_no_json
    (loads : String → Option ParsedResponse) (response : String)
    (h : hasBraceSpan response.data = false ∨ ∀ sub, loads sub = none) :
    parse_response loads response = sentinelResponse response := by
  unfold parse_response
  rcases h with h | h
  · rw [searchFenced_eq_none h, searchRaw_eq_none h]
    rfl
  · split
    · rfl
    · rw [h]

/-- Witness for C4 at a concrete brace-free reply and an always-failing
decoder. -/
theorem parse_response_sentinel_on_no_json_witness :
    parse_response (fun _ => none) "The video looks great overall." =
      sentinelResponse "The video looks great overall." ∧
    hasBraceSpan ("The video looks great overall.".data) = false :=
  ⟨parse_response_sentinel_on_no_json (fun _ => none) "The video looks great overall."
    (Or.inl (by decide)), by decide⟩

/-! ### `_compile_feedback` (`agentic_coach.py` lines 554-583) -/

/-- The `priority_order` dict (lines 576-580). -/
def priorityRank : FeedbackPriority → Nat
  | .PRIMARY => 0
  | .SECONDARY => 1
  | .REFINEMENT => 2

/-- The sort key `(priority_order[f.priority], f.start_seconds)` (line 581). -/
def feedbackKey (f : TimestampedFeedback) : Nat × ℚ :=
  (priorityRank f.priority, f.start_seconds)

/-- Python tuple comparison of two sort keys (lexicographic `≤`).
`list.sort(key=...)` is a stable sort with respect to this relation. -/
def feedbackLE (f g : TimestampedFeedback) : Prop :=
  priorityRank f.priority < priorityRank g.priority ∨
    (priorityRank f.priority = priorityRank g.priority ∧
      f.start_seconds ≤ g.start_seconds)

instance : DecidableRel feedbackLE := fun f g => by
  unfold feedbackLE; infer_instance

instance : IsTotal TimestampedFeedback feedbackLE where
  total a b := by
    unfold feedbackLE
    rcases lt_trichotomy (priorityRank a.priority) (priorityRank b.priority)
      with h | h | h
    · exact Or.inl (Or.inl h)
    · rcases le_total a.start_seconds b.start_seconds with hs | hs
      · exact Or.inl (Or.inr ⟨h, hs⟩)
      · exact Or.inr (Or.inr ⟨h.symm, hs⟩)
    · exact Or.inr (Or.inl h)

instance : IsTrans TimestampedFeedback feedbackLE where
  trans a b c hab hbc := by
    unfold feedbackLE at *
    rcases hab with h1 | ⟨h1, h1'⟩ <;> rcases hbc with h2 | ⟨h2, h2'⟩
    · exact Or.inl (h1.trans h2)
    · exact Or.inl (h2 ▸ h1)
    · exact Or.inl (h1 ▸ h2)
    · exact Or.inr ⟨h1.trans h2, h1'.trans h2'⟩

/-- The dedup loop of `_compile_feedback` (lines 566-573): walk candidate
items in order, appending an item only when its `description` is not among
the descriptions already present (`seen_descriptions` always equals the
description set of the list built so far). -/
def addNovelFrom (feedback : List TimestampedFeedback) :
    List TimestampedFeedback → List TimestampedFeedback
  | [] => feedback
  | fb :: rest =>
    if (feedback.map TimestampedFeedback.description).contains fb.description then
      addNovelFrom feedback rest
    else addNovelFrom (feedback ++ [fb]) rest

/-- The pre-sort compiled list (lines 560-573): the last iteration's items
verbatim, then novel-description items from earlier iterations scanned
earliest-to-latest. -/
def dedupStage (iterations : List AgentIteration) : List TimestampedFeedback :=
  match iterations.getLast? with
  | none => []
  | some lastIter =>
    addNovelFrom lastIter.feedback_items
      ((iterations.dropLast.map AgentIteration.feedback_items).flatten)

/-- `_compile_feedback` (lines 554-583): dedup then the stable sort
`feedback.sort(key=lambda f: (priority_order[f.priority], f.start_seconds))`. -/
def compile_feedback (iterations : List AgentIteration) : List TimestampedFeedback :=
  List.insertionSort feedbackLE (dedupStage iterations)

/-- How many entries of `l` carry description `d`. -/
def descCount (l : List TimestampedFeedback) (d : String) : Nat :=
  (l.filter (fun f => decide (f.description = d))).length

theorem descCount_append (l₁ l₂ : List TimestampedFeedback) (d : String) :
    descCount (l₁ ++ l₂) d = descCount l₁ d + descCount l₂ d := by
  simp [descCount, List.filter_append]

theorem descCount_cons (fb : TimestampedFeedback) (l : List TimestampedFeedback)
    (d : String) :
    descCount (fb :: l) d =
      (if fb.description = d then 1 else 0) + descCount l d := by
  by_cases h : fb.description = d <;>
    simp [descCount, List.filter_cons, h, Nat.add_comm]

theorem descCount_singleton (fb : TimestampedFeedback) (d : String) :
    descCount [fb] d = if fb.description = d then 1 else 0 := by
  by_cases h : fb.description = d <;> simp [descCount, h]

theorem contains_desc_iff (acc : List TimestampedFeedback) (d : String) :
    ((acc.map TimestampedFeedback.description).contains d = true) ↔
      descCount acc d ≠ 0 := by
  constructor
  · intro h
    simp only [List.contains] at h
    obtain ⟨f, hf, hfd⟩ := List.mem_map.mp (List.mem_of_elem_eq_true h)
    unfold descCount
    rw [Ne, List.length_eq_zero, List.filter_eq_nil_iff]
    push_neg
    exact ⟨f, hf, by simpa using hfd⟩
  · intro h
    unfold descCount at h
    rw [Ne, List.length_eq_zero, List.filter_eq_nil_iff] at h
    push_neg at h
    obtain ⟨f, hf, hfd⟩ := h
    simp only [List.contains]
    exact List.elem_eq_true_of_mem
      (List.mem_map.mpr ⟨f, hf, by simpa using hfd⟩)

theorem addNovelFrom_descCount (d : String) :
    ∀ (rest acc : List TimestampedFeedback),
      descCount (addNovelFrom acc rest) d =
        if descCount acc d ≠ 0 then descCount acc d
        else min 1 (descCount rest d)
  | [], acc => by
    unfold addNovelFrom
    by_cases h : descCount acc d ≠ 0
    · rw [if_pos h]
    · rw [if_neg h]
      push_neg at h
      rw [h]
      rfl
  | fb :: rest, acc => by
    have hstep : addNovelFrom acc (fb :: rest) =
        if (acc.map TimestampedFeedback.description).contains fb.description then
          addNovelFrom acc rest
        else addNovelFrom (acc ++ [fb]) rest := rfl
    rw [hstep]
    by_cases hc : (acc.map TimestampedFeedback.description).contains
        fb.description = true
    · rw [if_pos hc, addNovelFrom_descCount d rest acc]
      by_cases hfd : fb.description = d
      · have hacc : descCount acc d ≠ 0 := hfd ▸ (contains_desc_iff _ _).mp hc
        rw [if_pos hacc, if_pos hacc]
      · rw [descCount_cons, if_neg hfd]
        simp
    · rw [if_neg hc, addNovelFrom_descCount d rest (acc ++ [fb])]
      have hacc0 : descCount acc fb.description = 0 := by
        by_contra h
        exact hc ((contains_desc_iff _ _).mpr h)
      by_cases hfd : fb.description = d
      · subst hfd
        have h1 : descCount (acc ++ [fb]) fb.description = 1 := by
          rw [descCount_append, descCount_singleton, if_pos rfl, hacc0]
        rw [h1, if_pos (by omega), if_neg (by omega), descCount_cons, if_pos rfl]
        simp
      · have h1 : descCount (acc ++ [fb]) d = descCount acc d := by
          rw [descCount_append, descCount_singleton, if_neg hfd]
          omega
        rw [h1, descCount_cons, if_neg hfd]
        simp

theorem addNovelFrom_filter_of_present (d : String) :
    ∀ (rest acc : List TimestampedFeedback), descCount acc d ≠ 0 →
      (addNovelFrom acc rest).filter (fun f => decide (f.description = d)) =
        acc.filter (fun f => decide (f.description = d))
  | [], acc, _ => by unfold addNovelFrom; rfl
  | fb :: rest, acc, hacc => by
    have hstep : addNovelFrom acc (fb :: rest) =
        if (acc.map TimestampedFeedback.description).contains fb.description then
          addNovelFrom acc rest
        else addNovelFrom (acc ++ [fb]) rest := rfl
    rw [hstep]
    by_cases hc : (acc.map TimestampedFeedback.description).contains
        fb.description = true
    · rw [if_pos hc]
      exact addNovelFrom_filter_of_present d rest acc hacc
    · rw [if_neg hc]
      have hfd : fb.description ≠ d := by
        intro h
        exact hc (by rw [h]; exact (contains_desc_iff acc d).mpr hacc)
      rw [addNovelFrom_filter_of_present d rest (acc ++ [fb])
        (by rw [descCount_append, descCount_singleton, if_neg hfd]; omega)]
      simp [List.filter_append, hfd]

theorem addNovelFrom_find_of_absent (d : String) :
    ∀ (rest acc : List TimestampedFeedback) (tf : TimestampedFeedback),
      descCount acc d = 0 → tf ∈ addNovelFrom acc rest → tf.description = d →
      rest.find? (fun f => decide (f.description = d)) = some tf
  | [], acc, tf, hacc, hmem, htf => by
    unfold addNovelFrom at hmem
    have : descCount acc d ≠ 0 := by
      unfold descCount
      rw [Ne, List.length_eq_zero, List.filter_eq_nil_iff]
      push_neg
      exact ⟨tf, hmem, by simpa using htf⟩
    exact absurd hacc this
  | fb :: rest, acc, tf, hacc, hmem, htf => by
    have hstep : addNovelFrom acc (fb :: rest) =
        if (acc.map TimestampedFeedback.description).contains fb.description then
          addNovelFrom acc rest
        else addNovelFrom (acc ++ [fb]) rest := rfl
    rw [hstep] at hmem
    by_cases hfd : fb.description = d
    · have hc : ¬ ((acc.map TimestampedFeedback.description).contains
          fb.description = true) := by
        intro hb
        have h2 : descCount acc d ≠ 0 := hfd ▸ (contains_desc_iff _ _).mp hb
        exact h2 hacc
      rw [if_neg hc] at hmem
      have hfilter :
          (addNovelFrom (acc ++ [fb]) rest).filter
            (fun f => decide (f.description = d)) =
          (acc ++ [fb]).filter (fun f => decide (f.description = d)) :=
        addNovelFrom_filter_of_present d rest (acc ++ [fb])
          (by rw [descCount_append, descCount_singleton, if_pos hfd, hacc]; omega)
      have hanil : acc.filter (fun f => decide (f.description = d)) = [] := by
        have := hacc
        unfold descCount at this
        rwa [List.length_eq_zero] at this
      have hfl : (acc ++ [fb]).filter (fun f => decide (f.description = d)) =
          [fb] := by
        simp [List.filter_append, hanil, hfd]
      have htfb : tf = fb := by
        have : tf ∈ [fb] := by
          rw [← hfl, ← hfilter]
          exact List.mem_filter.mpr ⟨hmem, by simpa using htf⟩
        simpa using this
      rw [List.find?_cons_of_pos _ (by simpa using hfd), htfb]
    · have hrest : rest.find? (fun f => decide (f.description = d)) = some tf := by
        split_ifs at hmem with hc
        · exact addNovelFrom_find_of_absent d rest acc tf hacc hmem htf
        · exact addNovelFrom_find_of_absent d rest (acc ++ [fb]) tf
            (by rw [descCount_append, descCount_singleton, if_neg hfd, hacc])
            hmem htf
      rw [List.find?_cons_of_neg _ (by simpa using hfd)]
      exact hrest

theorem descCount_compile (its : List AgentIteration) (d : String) :
    descCount (compile_feedback its) d = descCount (dedupStage its) d := by
  unfold compile_feedback descCount
  exact ((List.perm_insertionSort feedbackLE (dedupStage its)).filter _).length_eq

/-- C3 amended: the last iteration's items are kept verbatim (so two
identical descriptions inside the last iteration both survive); a
description present in the last iteration keeps exactly the last
iteration's instances; a description absent from it is kept exactly once,
namely its first occurrence scanning the earlier iterations from earliest
to latest. -/
theorem compile_feedback_dedup_amended (its : List AgentIteration)
    (lastIter : AgentIteration) (hlast : its.getLast? = some lastIter)
    (d : String) :
    descCount (compile_feedback its) d =
      (if descCount lastIter.feedback_items d ≠ 0
       then descCount lastIter.feedback_items d
       else min 1 (descCount
         ((its.dropLast.map AgentIteration.feedback_items).flatten) d)) ∧
    (descCount lastIter.feedback_items d = 0 →
      ∀ tf ∈ compile_feedback its, tf.description = d →
        ((its.dropLast.map AgentIteration.feedback_items).flatten).find?
          (fun f => decide (f.description = d)) = some tf) := by
  have hded : dedupStage its =
      addNovelFrom lastIter.feedback_items
        ((its.dropLast.map AgentIteration.feedback_items).flatten) := by
    unfold dedupStage
    rw [hlast]
  constructor
  · rw [descCount_compile, hded, addNovelFrom_descCount]
  · intro h0 tf hmem htf
    have hmem' : tf ∈ dedupStage its := by
      unfold compile_feedback at hmem
      exact (List.mem_insertionSort feedbackLE).mp hmem
    exact addNovelFrom_find_of_absent d _ _ tf h0 (hded ▸ hmem') htf

/-! Concrete fixtures for the dedup counterexample: description `A` appears
in iterations 1 and 2 (but not 3), description `B` appears twice inside the
final iteration 3. -/

def tfA1 : TimestampedFeedback :=
  ⟨.BODY_POSITION, "A", "r1", 0, none, .PRIMARY, []⟩

def tfA2 : TimestampedFeedback :=
  ⟨.BODY_POSITION, "A", "r2", 0, none, .SECONDARY, []⟩

def tfB1 : TimestampedFeedback :=
  ⟨.KICK, "B", "r3", 1, none, .SECONDARY, []⟩

def tfB2 : TimestampedFeedback :=
  ⟨.KICK, "B", "r4", 2, none, .REFINEMENT, []⟩

def itsC3 : List AgentIteration :=
  [⟨1, 0, [], "", [], [tfA1]⟩, ⟨2, 0, [], "", [], [tfA2]⟩,
   ⟨3, 0, [], "", [], [tfB1, tfB2]⟩]

/-- C3 counterexample: on `itsC3` the compiled list holds two distinct
entries with identical description `B`,
and for description `A` (appearing in iterations 1 and 2) the kept instance
is iteration 1's, not the latest iteration 2's. -/
theorem compile_feedback_dedup_counterexample :
    compile_feedback itsC3 = [tfA1, tfB1, tfB2] ∧
    tfB1.description = tfB2.description ∧ tfB1 ≠ tfB2 ∧
    tfA1 ∈ compile_feedback itsC3 ∧ tfA2 ∉ compile_feedback itsC3 ∧
    tfA1.description = tfA2.description ∧ tfA1 ≠ tfA2 := by
  decide

/-- Witness for the amended C3 theorem on the same concrete input. -/
theorem compile_feedback_dedup_amended_witness :
    descCount (compile_feedback itsC3) "A" = 1 ∧
    ((itsC3.dropLast.map AgentIteration.feedback_items).flatten).find?
      (fun f => decide (f.description = "A")) = some tfA1 := by
  obtain ⟨h1, h2⟩ :=
    compile_feedback_dedup_amended itsC3 ⟨3, 0, [], "", [], [tfB1, tfB2]⟩ rfl "A"
  constructor
  · rw [h1]; decide
  · exact h2 (by decide) tfA1 (by decide) rfl

/-! ### Stability of the final sort (C6) -/

theorem filter_orderedInsert_key (x : TimestampedFeedback) (k : Nat × ℚ) :
    ∀ l : List TimestampedFeedback,
      (List.orderedInsert feedbackLE x l).filter
          (fun f => decide (feedbackKey f = k)) =
        if feedbackKey x = k
        then x :: l.filter (fun f => decide (feedbackKey f = k))
        else l.filter (fun f => decide (feedbackKey f = k))
  | [] => by
    simp only [List.orderedInsert]
    by_cases hk : feedbackKey x = k <;> simp [hk]
  | b :: l => by
    simp only [List.orderedInsert]
    by_cases hle : feedbackLE x b
    · rw [if_pos hle]
      by_cases hk : feedbackKey x = k <;> simp [List.filter_cons, hk]
    · rw [if_neg hle]
      have hkey : feedbackKey b ≠ feedbackKey x := by
        unfold feedbackLE at hle
        push_neg at hle
        obtain ⟨h1, h2⟩ := hle
        unfold feedbackKey
        intro hkk
        rw [Prod.mk.injEq] at hkk
        have hlt := h2 hkk.1.symm
        rw [hkk.2] at hlt
        exact lt_irrefl _ hlt
      by_cases hk : feedbackKey x = k
      · have hbk : ¬ feedbackKey b = k := fun h => hkey (h.trans hk.symm)
        simp only [List.filter_cons]
        rw [filter_orderedInsert_key x k l, if_pos hk]
        simp [hbk, hk]
      · have : (List.orderedInsert feedbackLE x l).filter
            (fun f => decide (feedbackKey f = k)) =
            l.filter (fun f => decide (feedbackKey f = k)) := by
          rw [filter_orderedInsert_key x k l, if_neg hk]
        simp only [List.filter_cons, this]
        rw [if_neg hk]

theorem filter_insertionSort_key (k : Nat × ℚ) :
    ∀ l : List TimestampedFeedback,
      (List.insertionSort feedbackLE l).filter
          (fun f => decide (feedbackKey f = k)) =
        l.filter (fun f => decide (feedbackKey f = k))
  | [] => rfl
  | b :: l => by
    simp only [List.insertionSort]
    rw [filter_orderedInsert_key b k (List.insertionSort feedbackLE l),
      List.filter_cons]
    by_cases hk : feedbackKey b = k
    · rw [if_pos hk, filter_insertionSort_key k l]
      simp [hk]
    · rw [if_neg hk, filter_insertionSort_key k l]
      simp [hk]

/-- C6: the compiled feedback list is sorted by (priority rank, start
timestamp) in lexicographic order — primary before secondary before
refinement, ascending start within equal priority — and the sort is stable:
for every key, the entries carrying that exact key appear in the same
relative order as in the pre-sort compiled (dedup-stage) list, so ties keep
their order of first appearance. -/
theorem compile_feedback_sorted_stable (its : List AgentIteration)
    (k : Nat × ℚ) :
    List.Sorted feedbackLE (compile_feedback its) ∧
    (compile_feedback its).filter (fun f => decide (feedbackKey f = k)) =
      (dedupStage its).filter (fun f => decide (feedbackKey f = k)) :=
  ⟨List.sorted_insertionSort feedbackLE (dedupStage its),
   filter_insertionSort_key k (dedupStage its)⟩

/-! ### C5: `FrameRequest.timestamps` -/

theorem timestampsAux_head (endS interval t : ℚ) (fuel : Nat) (h : t ≤ endS) :
    (timestampsAux endS interval t (fuel + 1)).head? = some (round2 t) := by
  unfold timestampsAux
  rw [if_pos h]
  rfl

/-- C5 amended: elements are `round(t, 2)`, not the raw step values, so the
list starts at `round(start, 2)` (not necessarily `start`) and each element
is at most `end + 1/200` (not necessarily ≤ `end`); it is non-decreasing,
every element is a multiple of `1/100`, and the list depends only on
(start, end, fps) — the derivation is deterministic. -/
theorem timestamps_amended (start endQ fps : ℚ) (reason reason2 : String)
    (h0 : 0 ≤ start) (h1 : start ≤ endQ) (h2 : 0 < fps) :
    ((FrameRequest.mk start endQ reason fps).timestamps).head? =
        some (round2 start) ∧
    List.Sorted (· ≤ ·) (FrameRequest.mk start endQ reason fps).timestamps ∧
    (∀ x ∈ (FrameRequest.mk start endQ reason fps).timestamps,
        x ≤ endQ + 1/200) ∧
    (∀ x ∈ (FrameRequest.mk start endQ reason fps).timestamps,
        ∃ n : ℤ, x = (n : ℚ) / 100) ∧
    (FrameRequest.mk start endQ reason2 fps).timestamps =
      (FrameRequest.mk start endQ reason fps).timestamps := by
  have hint : (0 : ℚ) ≤ 1 / fps := by positivity
  refine ⟨?_, timestampsAux_sorted hint _ _,
    fun x hx => timestampsAux_mem_le _ _ x hx,
    fun x hx => timestampsAux_mult _ _ x hx, rfl⟩
  exact timestampsAux_head endQ (1 / fps) start _ h1

/-- C5 counterexample: `start = end = 0.375` (an exact binary float, so the
Python run matches the exact model) with `fps = 1` satisfies the claim's
hypotheses `0 ≤ start ≤ end`, `fps > 0`, yet the produced list is `[0.38]`:
its first element differs from `start` and exceeds `end`, because the loop
appends `round(t, 2)` (here a half-to-even tie at `37.5/100 → 38/100`). -/
theorem timestamps_round_counterexample :
    (FrameRequest.mk (3/8) (3/8) "catch" 1).timestamps = [19/50] ∧
    ¬ ((19 : ℚ)/50 = (FrameRequest.mk (3/8) (3/8) "catch" 1).start_seconds) ∧
    ¬ ((19 : ℚ)/50 ≤ (FrameRequest.mk (3/8) (3/8) "catch" 1).end_seconds) ∧
    (0 : ℚ) ≤ 3/8 ∧ (3 : ℚ)/8 ≤ 3/8 ∧ (0 : ℚ) < 1 := by
  decide

/-- Witness for the amended C5 theorem at (start, end, fps) = (10, 11, 2). -/
theorem timestamps_amended_witness :
    ((FrameRequest.mk 10 11 "catch" 2).timestamps).head? = some (round2 10) ∧
    List.Sorted (· ≤ ·) (FrameRequest.mk 10 11 "catch" 2).timestamps := by
  obtain ⟨ha, hb, -, -, -⟩ := timestamps_amended 10 11 2 "catch" "other"
    (by norm_num) (by norm_num) (by norm_num)
  exact ⟨ha, hb⟩

/-! ### C7: `_parse_feedback` fallbacks -/

/-- C7: `_parse_feedback` consumes a parsed response without failing — it
produces one `TimestampedFeedback` per feedback entry (the embedding is a
total function; the only `raise` sites, the two enum constructors, sit
inside `try/except ValueError`) — and an entry whose category string is
unknown gets the default category `body_position`, while an unknown
priority string gets the default priority `secondary`. -/
theorem parse_feedback_defaults (parsed : ParsedResponse) (fb : FbJson)
    (s t : String) (hmem : fb ∈ parsed.feedback.getD [])
    (hcs : fb.category = some s) (hs : techniqueCategoryOfValue s = none)
    (hct : fb.priority = some t) (ht : feedbackPriorityOfValue t = none) :
    (parse_feedback parsed).length = (parsed.feedback.getD []).length ∧
    convertFeedbackEntry fb ∈ parse_feedback parsed ∧
    (convertFeedbackEntry fb).category = TechniqueCategory.BODY_POSITION ∧
    (convertFeedbackEntry fb).priority = FeedbackPriority.SECONDARY := by
  refine ⟨by simp [parse_feedback], List.mem_map_of_mem _ hmem, ?_, ?_⟩
  · unfold convertFeedbackEntry
    rw [hcs]
    simp [hs]
  · unfold convertFeedbackEntry
    rw [hct]
    simp [ht]

def fbW : FbJson :=
  ⟨some "sidestroke", some "urgent", some "elbow drops", some "raise elbow",
   some 1, some 2, some []⟩

/-- Witness for C7 at a concrete entry with category `"sidestroke"` and
priority `"urgent"`, neither of which the enums know. -/
theorem parse_feedback_defaults_witness :
    (convertFeedbackEntry fbW).category = TechniqueCategory.BODY_POSITION ∧
    (convertFeedbackEntry fbW).priority = FeedbackPriority.SECONDARY := by
  obtain ⟨-, -, hc, hp⟩ := parse_feedback_defaults
    ⟨none, none, none, some [fbW]⟩ fbW "sidestroke" "urgent"
    (by decide) rfl (by decide) rfl (by decide)
  exact ⟨hc, hp⟩

/-! ### `models.py` value objects and `to_standard_result` (C10)

The `__post_init__` validations become `Except`-returning smart
constructors; a `.error` models the `ValueError` the dataclass raises.
Random (`uuid4`) and wall-clock (`datetime`) default fields are not part
of the model. -/

/-- Python `not s.strip()`: the string is empty or all whitespace. -/
def pyBlank (s : String) : Bool := s.data.all isSpaceChar

/-- `Timestamp` (`models.py` lines 54-66): rejects negative seconds. -/
def mkTimestamp (seconds : ℚ) : Except String ℚ :=
  if seconds < 0 then .error "Timestamp cannot be negative" else .ok seconds

/-- `TimeRange` (`models.py` lines 76-88).  `end` is a Lean keyword, so the
second field is spelled `endTime`. -/
structure TimeRange where
  start : ℚ
  endTime : ℚ
deriving DecidableEq

/-- `TimeRange.__post_init__`: rejects `end < start`. -/
def mkTimeRange (start endTime : ℚ) : Except String TimeRange :=
  if endTime < start then .error "End timestamp must be after start timestamp"
  else .ok ⟨start, endTime⟩

/-- `TechniqueObservation` (`models.py` lines 91-104). -/
structure TechniqueObservation where
  category : TechniqueCategory
  description : String
  time_range : Option TimeRange := none
deriving DecidableEq

/-- `TechniqueObservation.__post_init__`: rejects blank descriptions. -/
def mkTechniqueObservation (category : TechniqueCategory) (description : String)
    (time_range : Option TimeRange) : Except String TechniqueObservation :=
  if pyBlank description then .error "Observation description cannot be empty"
  else .ok ⟨category, description, time_range⟩

/-- `CoachingFeedback` (`models.py` lines 107-129), content fields. -/
structure CoachingFeedback where
  priority : FeedbackPriority
  observation : TechniqueObservation
  recommendation : String
  drill_suggestions : List String
deriving DecidableEq

/-- `CoachingFeedback.__post_init__`: rejects blank recommendations. -/
def mkCoachingFeedback (priority : FeedbackPriority)
    (observation : TechniqueObservation) (recommendation : String)
    (drill_suggestions : List String) : Except String CoachingFeedback :=
  if pyBlank recommendation then .error "Feedback must include a recommendation"
  else .ok ⟨priority, observation, recommendation, drill_suggestions⟩

/-- `AnalysisResult` (`models.py` lines 154-169), content fields. -/
structure AnalysisResult where
  stroke_type : StrokeType
  observations : List TechniqueObservation
  feedback : List CoachingFeedback
  summary : String
  frame_count_analyzed : Nat
deriving DecidableEq

/-- Body of the `for tf in self.timestamped_feedback` loop of
`to_standard_result` (`agentic_coach.py` lines 145-162).  Note
`Timestamp(tf.end_seconds or tf.start_seconds)`: an end of `None` or `0.0`
falls back to the start (Python truthiness). -/
def buildFeedbackItem (tf : TimestampedFeedback) :
    Except String CoachingFeedback := do
  let s ← mkTimestamp tf.start_seconds
  let e ← mkTimestamp (match tf.end_seconds with
    | some v => if v = 0 then tf.start_seconds else v
    | none => tf.start_seconds)
  let tr ← mkTimeRange s e
  let obs ← mkTechniqueObservation tf.category
    ("[" ++ tf.timestamp_display ++ "] " ++ tf.description) (some tr)
  mkCoachingFeedback tf.priority obs tf.recommendation tf.drill_suggestions

/-- The loop over `timestamped_feedback`, left to right; the first
`ValueError` aborts (propagates out of) the whole conversion. -/
def buildItems : List TimestampedFeedback → Except String (List CoachingFeedback)
  | [] => .ok []
  | tf :: rest => do
    let item ← buildFeedbackItem tf
    let rest' ← buildItems rest
    .ok (item :: rest')

/-- `AgenticAnalysisResult.to_standard_result` (lines 142-170). -/
def to_standard_result (r : AgenticAnalysisResult) :
    Except String AnalysisResult := do
  let items ← buildItems r.timestamped_feedback
  .ok ⟨r.stroke_type, [], items, r.final_summary, r.total_frames_analyzed⟩

/-- An item whose end is present, nonzero and strictly before its start. -/
def endBeforeStart (tf : TimestampedFeedback) : Bool :=
  match tf.end_seconds with
  | some e => !(e == 0) && decide (e < tf.start_seconds)
  | none => false

/-- An item `to_standard_result` converts without raising: non-negative
start, non-blank recommendation, and an end that is absent, zero, or at
least the start. -/
def goodFeedbackItem (tf : TimestampedFeedback) : Bool :=
  decide (0 ≤ tf.start_seconds) && !(pyBlank tf.recommendation) &&
    (match tf.end_seconds with
     | some e => (e == 0) || decide (tf.start_seconds ≤ e)
     | none => true)

theorem pyBlank_append_left (s t : String) (h : pyBlank s = false) :
    pyBlank (s ++ t) = false := by
  unfold pyBlank at *
  rw [String.data_append, List.all_append, h]
  rfl

theorem pyBlank_display (tf : TimestampedFeedback) :
    pyBlank ("[" ++ tf.timestamp_display ++ "] " ++ tf.description) = false :=
  pyBlank_append_left _ _ (pyBlank_append_left _ _
    (pyBlank_append_left _ _ (by decide)))

theorem buildFeedbackItem_error_of_bad {tf : TimestampedFeedback}
    (h : endBeforeStart tf = true) : (buildFeedbackItem tf).isOk = false := by
  unfold endBeforeStart at h
  rcases he : tf.end_seconds with _ | e
  · rw [he] at h; simp at h
  · rw [he] at h
    simp only [Bool.and_eq_true] at h
    have he0 : ¬ e = 0 := by
      rcases h with ⟨h1, -⟩
      simpa using h1
    have hlt : e < tf.start_seconds := by
      rcases h with ⟨-, h2⟩
      simpa using h2
    unfold buildFeedbackItem mkTimestamp mkTimeRange
    rw [he]
    by_cases hs : tf.start_seconds < 0
    · simp [hs, bind, Except.bind, Except.isOk, Except.toBool]
    · simp only [hs, if_false, if_neg he0]
      by_cases hneg : e < 0
      · simp [hneg, bind, Except.bind, Except.isOk, Except.toBool]
      · simp [hneg, hlt, bind, Except.bind, Except.isOk, Except.toBool]

theorem buildFeedbackItem_ok_of_good {tf : TimestampedFeedback}
    (h : goodFeedbackItem tf = true) : (buildFeedbackItem tf).isOk = true := by
  unfold goodFeedbackItem at h
  simp only [Bool.and_eq_true, Bool.not_eq_true'] at h
  obtain ⟨⟨h1, h2⟩, h3⟩ := h
  have hs : ¬ tf.start_seconds < 0 := by
    simp only [decide_eq_true_eq] at h1
    exact not_lt.mpr h1
  have hs0 : (0 : ℚ) ≤ tf.start_seconds := by
    simpa using h1
  have hdesc := pyBlank_display tf
  unfold buildFeedbackItem mkTimestamp mkTimeRange mkTechniqueObservation
    mkCoachingFeedback
  rcases he : tf.end_seconds with _ | e
  · simp [hs, lt_irrefl, hdesc, h2, bind, Except.bind, Except.isOk,
      Except.toBool]
  · rw [he] at h3
    by_cases he0 : e = 0
    · simp [he0, hs, lt_irrefl, hdesc, h2, bind, Except.bind, Except.isOk,
        Except.toBool]
    · have hse : tf.start_seconds ≤ e := by
        rcases Bool.or_eq_true .. |>.mp h3 with hh | hh
        · exact absurd (by simpa using hh) he0
        · simpa using hh
      have hepos : ¬ e < 0 := not_lt.mpr (le_trans hs0 hse)
      simp [he0, hs, hepos, not_lt.mpr hse, hdesc, h2, bind, Except.bind,
        Except.isOk, Except.toBool]

theorem buildItems_error_of_mem_bad {l : List TimestampedFeedback}
    {tf : TimestampedFeedback} (hmem : tf ∈ l)
    (hbad : endBeforeStart tf = true) :
    (buildItems l).isOk = false := by
  induction l with
  | nil => simp at hmem
  | cons hd tl ih =>
    unfold buildItems
    rcases List.mem_cons.mp hmem with rfl | hmem'
    · rcases hbi : buildFeedbackItem tf with err | v
      · simp [bind, Except.bind, Except.isOk, Except.toBool]
      · have hfalse : (buildFeedbackItem tf).isOk = false :=
          buildFeedbackItem_error_of_bad hbad
        rw [hbi] at hfalse
        simp [Except.isOk, Except.toBool] at hfalse
    · rcases hbi : buildFeedbackItem hd with err | v
      · simp [bind, Except.bind, Except.isOk, Except.toBool]
      · rcases hrest : buildItems tl with err2 | vs
        · simp [bind, Except.bind, Except.isOk, Except.toBool, hrest]
        · have hfalse : (buildItems tl).isOk = false := ih hmem'
          rw [hrest] at hfalse
          simp [Except.isOk, Except.toBool] at hfalse

theorem buildItems_ok_of_all_good {l : List TimestampedFeedback}
    (h : ∀ tf ∈ l, goodFeedbackItem tf = true) :
    (buildItems l).isOk = true := by
  induction l with
  | nil => rfl
  | cons hd tl ih =>
    unfold buildItems
    rcases hbi : buildFeedbackItem hd with err | v
    · have htrue : (buildFeedbackItem hd).isOk = true :=
        buildFeedbackItem_ok_of_good (h hd (by simp))
      rw [hbi] at htrue
      simp [Except.isOk, Except.toBool] at htrue
    · rcases hrest : buildItems tl with err2 | vs
      · have htrue : (buildItems tl).isOk = true :=
          ih (fun tf htf => h tf (List.mem_cons_of_mem hd htf))
        rw [hrest] at htrue
        simp [Except.isOk, Except.toBool] at htrue
      · simp [bind, Except.bind, Except.isOk, Except.toBool, hrest]

/-- C10 amended: `to_standard_result` raises a `ValueError` whenever some
feedback item has `end_seconds` present, nonzero and strictly before
`start_seconds` — but the converse direction needs more than the claim
states: it returns without raising only when every item additionally has a
non-negative start (`Timestamp` validation) and a non-blank recommendation
(`CoachingFeedback` validation). -/
theorem to_standard_result_amended (r : AgenticAnalysisResult) :
    ((∃ tf ∈ r.timestamped_feedback, endBeforeStart tf = true) →
      (to_standard_result r).isOk = false) ∧
    ((∀ tf ∈ r.timestamped_feedback, goodFeedbackItem tf = true) →
      (to_standard_result r).isOk = true) := by
  constructor
  · rintro ⟨tf, hmem, hbad⟩
    unfold to_standard_result
    rcases hitems : buildItems r.timestamped_feedback with err | vs
    · simp [bind, Except.bind, Except.isOk, Except.toBool]
    · have hfalse := buildItems_error_of_mem_bad hmem hbad
      rw [hitems] at hfalse
      simp [Except.isOk, Except.toBool] at hfalse
  · intro hgood
    unfold to_standard_result
    rcases hitems : buildItems r.timestamped_feedback with err | vs
    · have htrue := buildItems_ok_of_all_good hgood
      rw [hitems] at htrue
      simp [Except.isOk, Except.toBool] at htrue
    · simp [bind, Except.bind, Except.isOk, Except.toBool]

/-- An item with end absent and a blank (empty) recommendation: the claim
says conversion succeeds, but `CoachingFeedback.__post_init__` raises. -/
def tfBlankRec : TimestampedFeedback :=
  ⟨.KICK, "knees bend too much", "", 1, none, .SECONDARY, []⟩

def rC10blank : AgenticAnalysisResult :=
  { stroke_type := .FREESTYLE, video_duration_seconds := 30,
    iterations := [], final_summary := "s",
    timestamped_feedback := [tfBlankRec], total_frames_analyzed := 0 }

/-- C10 counterexample: `rC10blank`'s single feedback item has
`end_seconds` absent (so by the claim conversion should succeed), yet
`to_standard_result` raises — the blank recommendation trips
`CoachingFeedback.__post_init__`. -/
theorem to_standard_result_counterexample :
    (to_standard_result rC10blank).isOk = false ∧
    rC10blank.timestamped_feedback.map TimestampedFeedback.end_seconds =
      [none] := by
  constructor
  · decide
  · rfl

def tfBadRange : TimestampedFeedback :=
  ⟨.KICK, "knees bend too much", "straighten the knees", 5, some 1,
   .SECONDARY, []⟩

def rC10bad : AgenticAnalysisResult :=
  { stroke_type := .FREESTYLE, video_duration_seconds := 30,
    iterations := [], final_summary := "s",
    timestamped_feedback := [tfBadRange], total_frames_analyzed := 0 }

def tfGoodRange : TimestampedFeedback :=
  ⟨.KICK, "knees bend too much", "straighten the knees", 1, some 2,
   .SECONDARY, []⟩

def rC10good : AgenticAnalysisResult :=
  { stroke_type := .FREESTYLE, video_duration_seconds := 30,
    iterations := [], final_summary := "s",
    timestamped_feedback := [tfGoodRange], total_frames_analyzed := 0 }

/-- Witness for the amended C10 theorem: a concrete end-before-start item
makes conversion raise, and a concrete well-formed item converts. -/
theorem to_standard_result_amended_witness :
    (to_standard_result rC10bad).isOk = false ∧
    (to_standard_result rC10good).isOk = true :=
  ⟨(to_standard_result_amended rC10bad).1 ⟨tfBadRange, by decide, by decide⟩,
   (to_standard_result_amended rC10good).2 (by decide)⟩

/-! ### Prompts (`agentic_coach.py` lines 177-241) and prompt builders -/

/-- `AGENTIC_SYSTEM_PROMPT` (lines 177-228), verbatim. -/
def AGENTIC_SYSTEM_PROMPT : String := String.intercalate "\n" [
  "You are an experienced swim coach doing video analysis. You\x27re in an interactive session where you can request additional frames if you need to see specific moments more closely.",
  "",
  "## Your Workflow",
  "1. First, review the frames provided to understand the overall technique",
  "2. Identify areas that need closer inspection",
  "3. Request additional frames at specific timestamps if needed",
  "4. Provide timestamp-linked feedback",
  "",
  "## Response Format",
  "Structure your response as JSON with these fields:",
  "",
  "\x60\x60\x60json",
  "\x7b",
  "  \"summary\": \"Brief overview of what you observed\",",
  "  \"need_more_frames\": true/false,",
  "  \"frame_requests\": [",
  "    \x7b",
  "      \"start_seconds\": 2.5,",
  "      \"end_seconds\": 3.5,",
  "      \"reason\": \"Need to see catch phase more closely\",",
  "      \"fps\": 3.0",
  "    \x7d",
  "  ],",
  "  \"feedback\": [",
  "    \x7b",
  "      \"timestamp_start\": 2.5,",
  "      \"timestamp_end\": 3.0,",
  "      \"category\": \"catch_and_pull\",",
  "      \"priority\": \"primary\",",
  "      \"observation\": \"Your elbow drops below your wrist during the catch\",",
  "      \"recommendation\": \"Focus on early vertical forearm - imagine reaching over a barrel\",",
  "      \"drills\": [\"fingertip drag\", \"catch-up drill\"]",
  "    \x7d",
  "  ],",
  "  \"strengths\": [",
  "    \x7b",
  "      \"timestamp_start\": 0.0,",
  "      \"observation\": \"Good horizontal body position throughout\"",
  "    \x7d",
  "  ]",
  "\x7d",
  "\x60\x60\x60",
  "",
  "## Guidelines",
  "- Reference specific timestamps: \"At 0:12, your elbow...\" not \"your elbow sometimes...\"",
  "- Only request more frames if genuinely needed (limit requests to 2-3 per iteration)",
  "- Each frame request should target a specific technique element",
  "- Prioritize feedback: one PRIMARY issue, then SECONDARY",
  "- Be specific about what you see vs. what to do",
  "",
  "## Categories",
  "Use these categories: body_position, catch_and_pull, recovery, kick, timing, breathing, turns, starts"]

/-- `FOLLOWUP_PROMPT` (lines 231-241) with its one format slot applied. -/
def FOLLOWUP_PROMPT (frame_context : String) : String :=
  "I\x27ve provided the additional frames you requested. Here\x27s what we have now:\n\n"
    ++ frame_context ++
    "\n\nPlease analyze these new frames and update your feedback. \n- If you have enough information, set need_more_frames to false\n- If you still need clarification, you can request one more set of frames\n- Integrate your new observations with your previous feedback\n- Reference specific timestamps in your feedback\n\nRespond in the same JSON format."

/-- `_build_frame_context` (lines 459-471). -/
def build_frame_context (frame_info : List (ℚ × Nat)) (video_duration : ℚ) :
    String :=
  String.intercalate "\n"
    (["Video duration: " ++ formatFixed 1 video_duration ++ " seconds",
      "Analyzing " ++ toString frame_info.length ++
        " frames at these timestamps:"] ++
      frame_info.map (fun p =>
        "  Frame " ++ toString (p.2 + 1) ++ ": " ++ formatFixed 2 p.1 ++ "s"))

/-- `_build_user_prompt` (lines 473-495); `user_notes or "None provided"`
is Python truthiness on the string. -/
def build_user_prompt (iteration : Nat) (frame_context : String)
    (stroke_type : StrokeType) (user_notes : String)
    (video_duration : ℚ) : String :=
  if iteration = 0 then
    "I\x27m uploading frames from a swimming video for analysis.\n\n"
      ++ frame_context
      ++ "\n\nSwimmer context:\n- Stroke: " ++ stroke_type.value
      ++ "\n- Notes: "
      ++ (if user_notes = "" then "None provided" else user_notes)
      ++ "\n\nPlease analyze my technique. If you need to see specific moments more closely, request additional frames at those timestamps."
  else FOLLOWUP_PROMPT frame_context

/-- Knowledge injection into the system prompt (lines 344-355);
`if knowledge_context:` is falsy for both `None` and `[]`. -/
def mkSystemPrompt (knowledge_context : Option (List String)) : String :=
  match knowledge_context with
  | some ks =>
    if ks ≠ [] then
      "## Expert Swimming Knowledge\nUse this reference material to inform your coaching:\n\n"
        ++ String.intercalate "\n" (ks.map (fun chunk => "- " ++ chunk))
        ++ "\n\n---\n\n" ++ AGENTIC_SYSTEM_PROMPT
    else AGENTIC_SYSTEM_PROMPT
  | none => AGENTIC_SYSTEM_PROMPT

/-! ### The agentic engine (`AgenticSwimCoach`, lines 248-457)

The two async collaborators become pure function parameters; the vision
client additionally takes the 0-based call index so that a stateful client
(one whose answers differ between calls) is representable.  A `.error`
from `analyze_images` models a raised `RateLimitExceeded` / `APIError`
(the distinguished errors of the Anthropic client wrapper); `analyze_video`
has no handler for either, so in the model the error value becomes the
run's outcome.  Every collaborator invocation is recorded in a trace. -/

inductive VisionError where
  | RateLimitExceeded
  | ApiError
deriving DecidableEq

structure Collaborators where
  extract_frames_at_fps : List Nat → ℚ → Nat → List (ℚ × List Nat)
  extract_frames_at_timestamps : List Nat → List ℚ → List (ℚ × List Nat)
  analyze_images : Nat → List (List Nat) → String → String →
    Except VisionError String

/-- The engine configuration (`__init__`, lines 260-272). -/
structure AgenticSwimCoach where
  max_iterations : Nat := 3
  initial_fps : ℚ := 1/2
  max_frames_per_request : Nat := 10
deriving DecidableEq

inductive ExtractorCall where
  | atFps (video_data : List Nat) (fps : ℚ) (max_frames : Nat)
  | atTimestamps (video_data : List Nat) (timestamps : List ℚ)
deriving DecidableEq

structure VisionCall where
  images : List (List Nat)
  system_prompt : String
  user_prompt : String
deriving DecidableEq

structure EngineState where
  current_frames : List (ℚ × List Nat)
  all_analyzed_timestamps : List ℚ
  iterations : List AgentIteration
  total_frames_analyzed : Nat
  extractorCalls : List ExtractorCall
  visionCalls : List VisionCall
deriving DecidableEq

deriving instance DecidableEq for Except

structure RunOutput where
  outcome : Except VisionError AgenticAnalysisResult
  extractorCalls : List ExtractorCall
  visionCalls : List VisionCall
deriving DecidableEq

/-- Recording an `AgentIteration` (lines 370-385). -/
def mkIterRecord (iteration : Nat) (frames : List (ℚ × List Nat))
    (parsed : ParsedResponse) : AgentIteration :=
  { iteration_number := iteration + 1
    frames_analyzed := frames.length
    timestamps := frames.map Prod.fst
    response_summary := parsed.summary.getD ""
    frame_requests := (parsed.frame_requests.getD []).map (fun req =>
      { start_seconds := req.start_seconds.getD 0
        end_seconds := req.end_seconds.getD 0
        reason := req.reason.getD ""
        fps := req.fps.getD 2 })
    feedback_items := parse_feedback parsed }

/-- The `for req in frame_requests[:3]` extraction loop (lines 402-423):
per request, candidate timestamps at the capped rate `min(fps, 5.0)`,
filtered against the already-analyzed set, capped at
`max_frames_per_request`; skipped entirely when nothing new remains.
Returns (new frames, updated analyzed set, extractor calls made). -/
def extractRequests (coach : AgenticSwimCoach) (C : Collaborators)
    (video_data : List Nat) :
    List ℚ → List FrameReqJson →
      List (ℚ × List Nat) × List ℚ × List ExtractorCall
  | analyzed, [] => ([], analyzed, [])
  | analyzed, req :: rest =>
    let ts := (FrameRequest.mk (req.start_seconds.getD 0)
      (req.end_seconds.getD 0) (req.reason.getD "")
      (min (req.fps.getD 2) 5)).timestamps
    let new_ts := (ts.filter (fun t => !(analyzed.contains t))).take
      coach.max_frames_per_request
    if new_ts = [] then extractRequests coach C video_data analyzed rest
    else
      let extracted := C.extract_frames_at_timestamps video_data new_ts
      let next := extractRequests coach C video_data
        (analyzed ++ extracted.map Prod.fst) rest
      (extracted ++ next.1, next.2.1,
        ExtractorCall.atTimestamps video_data new_ts :: next.2.2)

/-- The `for iteration in range(self._max_iterations)` loop (lines
321-441): build prompts, send the current frame set, parse, record the
iteration, decide whether to continue; `current_frames := new_frames` on
continuation (line 433).  The second component is `some e` when the vision
call raised and the exception is propagating. -/
def runIterations (coach : AgenticSwimCoach) (C : Collaborators)
    (loads : String → Option ParsedResponse) (video_data : List Nat)
    (video_duration : ℚ) (stroke_type : StrokeType) (user_notes : String)
    (knowledge_context : Option (List String)) :
    Nat → Nat → EngineState → EngineState × Option VisionError
  | 0, _, st => (st, none)
  | fuel + 1, iteration, st =>
    let frame_context := build_frame_context
      (st.current_frames.enum.map (fun p => (p.2.1, p.1))) video_duration
    let user_prompt := build_user_prompt iteration frame_context stroke_type
      user_notes video_duration
    let system_prompt := mkSystemPrompt knowledge_context
    let frame_bytes := st.current_frames.map Prod.snd
    let st1 := { st with visionCalls :=
      st.visionCalls ++ [⟨frame_bytes, system_prompt, user_prompt⟩] }
    match C.analyze_images iteration frame_bytes system_prompt user_prompt with
    | .error e => (st1, some e)
    | .ok response =>
      let parsed := parse_response loads response
      let st2 := { st1 with
        iterations := st1.iterations ++
          [mkIterRecord iteration st.current_frames parsed]
        total_frames_analyzed :=
          st1.total_frames_analyzed + st.current_frames.length }
      if parsed.need_more_frames.getD false = false then (st2, none)
      else if (parsed.frame_requests.getD []) = [] then (st2, none)
      else
        let ext := extractRequests coach C video_data
          st2.all_analyzed_timestamps ((parsed.frame_requests.getD []).take 3)
        let st3 := { st2 with
          all_analyzed_timestamps := ext.2.1
          extractorCalls := st2.extractorCalls ++ ext.2.2 }
        if ext.1 = [] then (st3, none)
        else
          runIterations coach C loads video_data video_duration stroke_type
            user_notes knowledge_context fuel (iteration + 1)
            { st3 with current_frames := ext.1 }

/-- `_compile_summary` (lines 585-600). -/
def compile_summary (iterations : List AgentIteration) : String :=
  match iterations.getLast? with
  | none => "No analysis completed."
  | some lastIter =>
    lastIter.response_summary ++ " " ++ "\n\nAnalyzed "
      ++ toString (iterations.map AgentIteration.frames_analyzed).sum
      ++ " frames across " ++ toString iterations.length
      ++ " passes for a thorough technique review."

/-- The state before the first loop pass (lines 295-319): the initial
sparse extraction at the configured fps with `max_frames=20`, and the
seeding of the already-analyzed timestamp set. -/
def initialState (coach : AgenticSwimCoach) (C : Collaborators)
    (video_data : List Nat) : EngineState :=
  let initial_frames := C.extract_frames_at_fps video_data coach.initial_fps 20
  { current_frames := initial_frames
    all_analyzed_timestamps := initial_frames.map Prod.fst
    iterations := []
    total_frames_analyzed := 0
    extractorCalls := [ExtractorCall.atFps video_data coach.initial_fps 20]
    visionCalls := [] }

/-- After the loop (lines 443-457): a propagating vision-client exception
escapes as the outcome; otherwise compile the final feedback and summary
into the returned `AgenticAnalysisResult`. -/
def finalizeRun (stroke_type : StrokeType) (video_duration : ℚ)
    (res : EngineState × Option VisionError) : RunOutput :=
  match res.2 with
  | some e =>
    { outcome := .error e, extractorCalls := res.1.extractorCalls,
      visionCalls := res.1.visionCalls }
  | none =>
    { outcome := .ok {
        stroke_type := stroke_type
        video_duration_seconds := video_duration
        iterations := res.1.iterations
        final_summary := compile_summary res.1.iterations
        timestamped_feedback := compile_feedback res.1.iterations
        total_frames_analyzed := res.1.total_frames_analyzed }
      extractorCalls := res.1.extractorCalls
      visionCalls := res.1.visionCalls }

/-- `analyze_video` (lines 274-457): the initial sparse extraction, the
iteration loop, then the final compilation.  A vision-client error escapes
as the outcome — there is no `try/except` around `analyze_images`, and no
input validation before the first extractor call. -/
def analyze_video (coach : AgenticSwimCoach) (C : Collaborators)
    (loads : String → Option ParsedResponse) (video_data : List Nat)
    (video_duration : ℚ) (stroke_type : StrokeType) (user_notes : String)
    (knowledge_context : Option (List String)) : RunOutput :=
  finalizeRun stroke_type video_duration
    (runIterations coach C loads video_data video_duration stroke_type
      user_notes knowledge_context coach.max_iterations 0
      (initialState coach C video_data))

/-! ### Concrete engine runs (C1, C2, C9) -/

/-- The engine with its default configuration (`max_iterations=3`,
`initial_fps=0.5`, `max_frames_per_request=10`). -/
def coachD : AgenticSwimCoach := {}

/-- Decoder for the concrete reply `"\x7bx\x7d"`: the model asks for more
frames at 10s-11s, 2 fps. -/
def loadsC1 : String → Option ParsedResponse := fun s =>
  if s = "\x7bx\x7d" then
    some { summary := some "s1", need_more_frames := some true,
           frame_requests := some [⟨some 10, some 11, some "catch", some 2⟩],
           feedback := some [] }
  else none

/-- Vision client that answers the first call and raises the distinguished
rate-limit error on the second; the extractor provides two initial frames
and any requested timestamp frames. -/
def collabC1 : Collaborators :=
  { extract_frames_at_fps := fun _ _ _ => [(0, [1]), (2, [2])]
    extract_frames_at_timestamps := fun _ ts => ts.map (fun t => (t, [3]))
    analyze_images := fun k _ _ _ =>
      if k = 0 then .ok "\x7bx\x7d" else .error .RateLimitExceeded }

/-- C1: iteration 1 succeeds (N = 1), the vision model raises the
rate-limit error on iteration 2 — and `analyze_video` propagates the
exception instead of returning a partial `AgenticAnalysisResult` built
from iteration 1 (the dataclass has no partial flag at all; there is no
`try/except` around `analyze_images`). -/
theorem analyze_video_rateLimit_after_success_raises :
    (analyze_video coachD collabC1 loadsC1 [5] 30 .FREESTYLE "" none).outcome =
      .error .RateLimitExceeded ∧
    (analyze_video coachD collabC1 loadsC1 [5] 30
        .FREESTYLE "" none).visionCalls.length = 2 := by
  decide

/-- Same as `collabC1` but the second call succeeds with a plain-text
reply (which parses to the sentinel: no more frames needed). -/
def collabC2 : Collaborators :=
  { extract_frames_at_fps := fun _ _ _ => [(0, [1]), (2, [2])]
    extract_frames_at_timestamps := fun _ ts => ts.map (fun t => (t, [3]))
    analyze_images := fun k _ _ _ =>
      if k = 0 then .ok "\x7bx\x7d" else .ok "done" }

/-- C2: on the second iteration the engine sends only the three newly
extracted frames `[3]` — the initial frames `[1]`, `[2]` are dropped
(`current_frames = new_frames`, line 433), contradicting both the claim
and the adjacent comment "Combine with representative frames from previous
iterations". -/
theorem analyze_video_second_call_sends_only_new_frames :
    (analyze_video coachD collabC2 loadsC1 [5] 30
        .FREESTYLE "" none).visionCalls.map VisionCall.images =
      [[[1], [2]], [[3], [3], [3]]] ∧
    [1] ∉ ((analyze_video coachD collabC2 loadsC1 [5] 30
        .FREESTYLE "" none).visionCalls.getD 1 ⟨[], "", ""⟩).images := by
  decide

/-- A run on empty video bytes: one frame extracted, one satisfied reply. -/
def collabC9 : Collaborators :=
  { extract_frames_at_fps := fun _ _ _ => [(0, [1])]
    extract_frames_at_timestamps := fun _ ts => ts.map (fun t => (t, [2]))
    analyze_images := fun _ _ _ _ => .ok "all good" }

/-- C9 counterexample: with empty video bytes, `analyze_video` neither
rejects nor raises — it calls the frame extractor (first collaborator
call, with the empty bytes) and returns a normal result. -/
theorem analyze_video_no_input_validation_counterexample :
    (analyze_video coachD collabC9 (fun _ => none) [] 30
        .FREESTYLE "" none).extractorCalls =
      [ExtractorCall.atFps [] (1/2) 20] ∧
    (analyze_video coachD collabC9 (fun _ => none) [] 30
        .FREESTYLE "" none).outcome.isOk = true := by
  decide

/-! ### C9 amended: the extractor is always called first, unconditionally -/

theorem finalizeRun_extractorCalls (stroke_type : StrokeType)
    (video_duration : ℚ) (res : EngineState × Option VisionError) :
    (finalizeRun stroke_type video_duration res).extractorCalls =
      res.1.extractorCalls := by
  unfold finalizeRun
  cases res.2 <;> rfl

theorem runIterations_extractorCalls_head (coach : AgenticSwimCoach)
    (C : Collaborators) (loads : String → Option ParsedResponse)
    (video_data : List Nat) (video_duration : ℚ) (stroke_type : StrokeType)
    (user_notes : String) (knowledge_context : Option (List String)) :
    ∀ (fuel iteration : Nat) (st : EngineState) (c : ExtractorCall),
      st.extractorCalls.head? = some c →
      (runIterations coach C loads video_data video_duration stroke_type
        user_notes knowledge_context fuel iteration
        st).1.extractorCalls.head? = some c := by
  intro fuel
  induction fuel with
  | zero =>
    intro k st c hst
    simpa [runIterations] using hst
  | succ n ih =>
    intro k st c hst
    obtain ⟨tl, hst'⟩ : ∃ tl, st.extractorCalls = c :: tl := by
      cases h : st.extractorCalls with
      | nil => rw [h] at hst; simp at hst
      | cons a l =>
        rw [h] at hst
        simp only [List.head?_cons, Option.some.injEq] at hst
        exact ⟨l, by rw [hst]⟩
    simp only [runIterations]
    split
    · simp [hst']
    · split_ifs
      · simp [hst']
      · simp [hst']
      · simp [hst']
      · apply ih (k + 1) _ c
        simp [hst']

/-- C9 amended: `analyze_video` performs no input validation at all — for
every input, including empty video bytes, its first collaborator
interaction is the initial sparse extraction on exactly the bytes it was
given (rejection of empty uploads lives in the API route layer before this
method is called, and invalid stroke strings are excluded earlier by the
typed `StrokeType` parameter). -/
theorem analyze_video_extractor_called_first_amended
    (coach : AgenticSwimCoach) (C : Collaborators)
    (loads : String → Option ParsedResponse) (video_data : List Nat)
    (video_duration : ℚ) (stroke_type : StrokeType) (user_notes : String)
    (knowledge_context : Option (List String)) :
    (analyze_video coach C loads video_data video_duration stroke_type
      user_notes knowledge_context).extractorCalls.head? =
      some (ExtractorCall.atFps video_data coach.initial_fps 20) := by
  unfold analyze_video
  rw [finalizeRun_extractorCalls]
  exact runIterations_extractorCalls_head coach C loads video_data
    video_duration stroke_type user_notes knowledge_context
    coach.max_iterations 0 (initialState coach C video_data) _
    (by simp [initialState])

/-! ### C8: start ≤ end in the returned feedback -/

/-- The claimed invariant on a result item: start ≤ end when end present. -/
def tfEndOK (tf : TimestampedFeedback) : Bool :=
  match tf.end_seconds with
  | some e => decide (tf.start_seconds ≤ e)
  | none => true

/-- The same condition on a raw feedback entry of a decoded reply. -/
def fbJsonEndOK (fb : FbJson) : Bool :=
  match fb.timestamp_end with
  | some e => decide (fb.timestamp_start.getD 0 ≤ e)
  | none => true

/-- The vision model only ever produces replies whose decoded feedback
entries satisfy `timestamp_start ≤ timestamp_end` (when an end is given). -/
def goodResponses (C : Collaborators)
    (loads : String → Option ParsedResponse) : Prop :=
  ∀ (k : Nat) (imgs : List (List Nat)) (sp up r : String),
    C.analyze_images k imgs sp up = .ok r →
    ∀ fb ∈ (parse_response loads r).feedback.getD [], fbJsonEndOK fb = true

theorem convert_endOK {fb : FbJson} (h : fbJsonEndOK fb = true) :
    tfEndOK (convertFeedbackEntry fb) = true := h

def goodIter (it : AgentIteration) : Prop :=
  ∀ tf ∈ it.feedback_items, tfEndOK tf = true

def goodIters (its : List AgentIteration) : Prop :=
  ∀ it ∈ its, goodIter it

theorem goodIters_append_record {its : List AgentIteration}
    {rec : AgentIteration} (h1 : goodIters its) (h2 : goodIter rec) :
    goodIters (its ++ [rec]) := by
  intro it hit
  rcases List.mem_append.mp hit with h | h
  · exact h1 it h
  · rw [List.mem_singleton.mp h]
    exact h2

theorem goodIter_mkIterRecord {iteration : Nat}
    {frames : List (ℚ × List Nat)} {parsed : ParsedResponse}
    (h : ∀ fb ∈ parsed.feedback.getD [], fbJsonEndOK fb = true) :
    goodIter (mkIterRecord iteration frames parsed) := by
  intro tf htf
  simp only [mkIterRecord, parse_feedback] at htf
  obtain ⟨fb, hfb, rfl⟩ := List.mem_map.mp htf
  exact convert_endOK (h fb hfb)

theorem addNovelFrom_mem {tf : TimestampedFeedback} :
    ∀ {rest acc : List TimestampedFeedback}, tf ∈ addNovelFrom acc rest →
      tf ∈ acc ∨ tf ∈ rest
  | [], acc, h => Or.inl h
  | fb :: rest, acc, h => by
    have hstep : addNovelFrom acc (fb :: rest) =
        if (acc.map TimestampedFeedback.description).contains fb.description
        then addNovelFrom acc rest
        else addNovelFrom (acc ++ [fb]) rest := rfl
    rw [hstep] at h
    split_ifs at h
    · rcases addNovelFrom_mem h with h2 | h2
      · exact Or.inl h2
      · exact Or.inr (List.mem_cons_of_mem fb h2)
    · rcases addNovelFrom_mem h with h2 | h2
      · rcases List.mem_append.mp h2 with h3 | h3
        · exact Or.inl h3
        · exact Or.inr (by rw [List.mem_singleton.mp h3]; exact List.mem_cons_self fb rest)
      · exact Or.inr (List.mem_cons_of_mem fb h2)

theorem compile_feedback_mem {its : List AgentIteration}
    {tf : TimestampedFeedback} (h : tf ∈ compile_feedback its) :
    ∃ it ∈ its, tf ∈ it.feedback_items := by
  unfold compile_feedback at h
  have h1 : tf ∈ dedupStage its := (List.mem_insertionSort feedbackLE).mp h
  unfold dedupStage at h1
  cases hlast : its.getLast? with
  | none => rw [hlast] at h1; simp at h1
  | some lastIter =>
    rw [hlast] at h1
    rcases addNovelFrom_mem h1 with h2 | h2
    · exact ⟨lastIter, List.mem_of_mem_getLast? hlast, h2⟩
    · rw [List.mem_flatten] at h2
      obtain ⟨s, hs, hmem⟩ := h2
      obtain ⟨it, hit, rfl⟩ := List.mem_map.mp hs
      exact ⟨it, (List.dropLast_sublist its).subset hit, hmem⟩

theorem runIterations_good {coach : AgenticSwimCoach} {C : Collaborators}
    {loads : String → Option ParsedResponse} {video_data : List Nat}
    {video_duration : ℚ} {stroke_type : StrokeType} {user_notes : String}
    {knowledge_context : Option (List String)}
    (H : goodResponses C loads) :
    ∀ (fuel iteration : Nat) (st : EngineState), goodIters st.iterations →
      goodIters (runIterations coach C loads video_data video_duration
        stroke_type user_notes knowledge_context fuel iteration
        st).1.iterations := by
  intro fuel
  induction fuel with
  | zero =>
    intro k st h
    simpa [runIterations] using h
  | succ n ih =>
    intro k st hst
    simp only [runIterations]
    split
    · exact hst
    · rename_i response hresp
      have hrec : goodIters (st.iterations ++
          [mkIterRecord k st.current_frames (parse_response loads response)]) :=
        goodIters_append_record hst
          (goodIter_mkIterRecord (H k _ _ _ response hresp))
      split_ifs
      · exact hrec
      · exact hrec
      · exact hrec
      · exact ih (k + 1) _ hrec

theorem finalizeRun_ok {stroke_type : StrokeType} {video_duration : ℚ}
    {p : EngineState × Option VisionError} {r : AgenticAnalysisResult}
    (h : (finalizeRun stroke_type video_duration p).outcome = .ok r) :
    r.timestamped_feedback = compile_feedback p.1.iterations := by
  unfold finalizeRun at h
  cases hp : p.2 with
  | some e => rw [hp] at h; simp at h
  | none =>
    rw [hp] at h
    simp only [Except.ok.injEq] at h
    rw [← h]

/-- C8 amended: the engine itself never creates an end-before-start item —
if every feedback entry in every successful model reply satisfies
`timestamp_start ≤ timestamp_end` (when an end is given), then every item
of the returned result does too.  But the engine stores the model's
timestamps unvalidated (`_parse_feedback`, lines 542-550), so the claim's
unconditional version fails: see the counterexample. -/
theorem analyze_video_end_ge_start_amended (coach : AgenticSwimCoach)
    (C : Collaborators) (loads : String → Option ParsedResponse)
    (video_data : List Nat) (video_duration : ℚ) (stroke_type : StrokeType)
    (user_notes : String) (knowledge_context : Option (List String))
    (H : goodResponses C loads) (res : AgenticAnalysisResult)
    (hok : (analyze_video coach C loads video_data video_duration stroke_type
      user_notes knowledge_context).outcome = Except.ok res) :
    ∀ tf ∈ res.timestamped_feedback, tfEndOK tf = true := by
  intro tf htf
  have hfb : res.timestamped_feedback = compile_feedback
      (runIterations coach C loads video_data video_duration stroke_type
        user_notes knowledge_context coach.max_iterations 0
        (initialState coach C video_data)).1.iterations :=
    finalizeRun_ok hok
  rw [hfb] at htf
  obtain ⟨it, hit, htf'⟩ := compile_feedback_mem htf
  have hgood := @runIterations_good coach C loads video_data video_duration
    stroke_type user_notes knowledge_context H coach.max_iterations 0
    (initialState coach C video_data)
    (by intro it2 hit2; simp [initialState] at hit2)
  exact hgood it hit tf htf'

/-- A reply entry whose end (2.0) precedes its start (5.0). -/
def fbBadEnd : FbJson :=
  ⟨none, none, some "elbow drops", some "fix the catch", some 5, some 2,
   some []⟩

def loadsBadEnd : String → Option ParsedResponse := fun s =>
  if s = "\x7bb\x7d" then
    some { summary := some "sB", need_more_frames := some false,
           frame_requests := none, feedback := some [fbBadEnd] }
  else none

def collabBadEnd : Collaborators :=
  { extract_frames_at_fps := fun _ _ _ => [(0, [1])]
    extract_frames_at_timestamps := fun _ ts => ts.map (fun t => (t, [2]))
    analyze_images := fun _ _ _ _ => .ok "\x7bb\x7d" }

/-- C8 counterexample: a model reply carrying `timestamp_start = 5`,
`timestamp_end = 2` flows through `analyze_video` unchecked — the returned
result's feedback list holds an item with `end_seconds < start_seconds`. -/
theorem analyze_video_end_before_start_counterexample :
    (analyze_video coachD collabBadEnd loadsBadEnd [7] 30
        .FREESTYLE "" none).outcome.map
        AgenticAnalysisResult.timestamped_feedback =
      .ok [convertFeedbackEntry fbBadEnd] ∧
    (convertFeedbackEntry fbBadEnd).end_seconds = some 2 ∧
    (convertFeedbackEntry fbBadEnd).start_seconds = 5 ∧
    ¬ ((5 : ℚ) ≤ 2) := by
  decide

/-- A reply entry with a well-ordered range (1.0 to 2.0). -/
def fbGoodEnd : FbJson :=
  ⟨none, none, some "elbow drops", some "fix the catch", some 1, some 2,
   some []⟩

def loadsGoodEnd : String → Option ParsedResponse := fun s =>
  if s = "\x7bg\x7d" then
    some { summary := some "sG", need_more_frames := some false,
           frame_requests := none, feedback := some [fbGoodEnd] }
  else none

def collabGoodEnd : Collaborators :=
  { extract_frames_at_fps := fun _ _ _ => [(0, [1])]
    extract_frames_at_timestamps := fun _ ts => ts.map (fun t => (t, [2]))
    analyze_images := fun _ _ _ _ => .ok "\x7bg\x7d" }

def resGoodEnd : AgenticAnalysisResult :=
  match (analyze_video coachD collabGoodEnd loadsGoodEnd [7] 30
      .FREESTYLE "" none).outcome with
  | .ok r => r
  | .error _ => { stroke_type := .FREESTYLE, video_duration_seconds := 0 }

/-- Witness for the amended C8 theorem on a concrete well-behaved run. -/
theorem analyze_video_end_ge_start_amended_witness :
    tfEndOK (convertFeedbackEntry fbGoodEnd) = true := by
  have H : goodResponses collabGoodEnd loadsGoodEnd := by
    intro k imgs sp up r hr
    have hr' : "\x7bg\x7d" = r := by
      simpa [collabGoodEnd] using hr
    subst hr'
    decide
  exact analyze_video_end_ge_start_amended coachD collabGoodEnd loadsGoodEnd
    [7] 30 .FREESTYLE "" none H resGoodEnd (by decide)
    (convertFeedbackEntry fbGoodEnd) (by decide)
